import Mathlib

/-
  Verification development for the GSD Auto-Chain plugin
  (src/gsd-opencode/plugins/gsd-auto-chain.ts).

  Strings are modeled as lists of characters (`List Char`).  The
  JavaScript regular expressions of the plugin are hand-compiled into
  explicit scanning functions; where a regex involves backtracking the
  compiled function reproduces the engine's leftmost / greedy / lazy
  choice (the derivation is noted next to each definition).  JavaScript
  `\s`, `trim`, multiline `^`, and case folding are modeled over Unicode
  code points; `toLowerCase` is modeled per character via `Char.toLower`.
-/

set_option maxRecDepth 4000

/-- JavaScript regexp class `\s` (ECMAScript WhiteSpace ∪ LineTerminator):
    TAB LF VT FF CR SP NBSP OGHAM EN-QUAD..HAIR-SPACE LS PS NNBSP MMSP
    IDEOGRAPHIC-SPACE BOM.  This is also the set removed by `trim`. -/
def isJsWs (c : Char) : Bool :=
  c.toNat == 9 || c.toNat == 10 || c.toNat == 11 || c.toNat == 12 ||
  c.toNat == 13 || c.toNat == 32 || c.toNat == 160 || c.toNat == 5760 ||
  (Nat.ble 8192 c.toNat && Nat.ble c.toNat 8202) ||
  c.toNat == 8232 || c.toNat == 8233 || c.toNat == 8239 ||
  c.toNat == 8287 || c.toNat == 12288 || c.toNat == 65279

/-- JavaScript regexp class `\d`, i.e. `[0-9]`. -/
def isDigitChar (c : Char) : Bool :=
  Nat.ble 48 c.toNat && Nat.ble c.toNat 57

/-- The class `[a-z]`. -/
def isLowerAZ (c : Char) : Bool :=
  Nat.ble 97 c.toNat && Nat.ble c.toNat 122

/-- The class `[a-z-]` used in the command sub-patterns. -/
def isGsdBody (c : Char) : Bool :=
  isLowerAZ c || c.toNat == 45

/-- The class `[a-z0-9-]` used in the most permissive sub-patterns. -/
def isGsdBody5 (c : Char) : Bool :=
  isLowerAZ c || isDigitChar c || c.toNat == 45

/-- The class `[a-z0-9-]` under the `i` flag (case-insensitive). -/
def isGsdBody5CI (c : Char) : Bool :=
  isGsdBody5 c.toLower

/-- JavaScript line terminators (where multiline `^` matches after). -/
def isLineTerm (c : Char) : Bool :=
  c.toNat == 10 || c.toNat == 13 || c.toNat == 8232 || c.toNat == 8233

/-- `[^\n]` (anything but LF). -/
def isNotLf (c : Char) : Bool :=
  !(c.toNat == 10)

/-- `[^`]` (anything but a backtick). -/
def isNotBacktick (c : Char) : Bool :=
  !(c.toNat == 96)

/- Literal strings appearing in the plugin source. -/

def sNextUp : List Char := "Next Up".data
def sNextUpLower : List Char := "next up".data
def sHashHash : List Char := "##".data
def sHeavyLine : List Char := "━".data
def sAlsoAvailable : List Char := "Also available".data
def sLf : List Char := "\n".data
def sSlashGsd : List Char := "/gsd".data
def sGsdDiscussPhase : List Char := "/gsd-discuss-phase".data
def sGsdPlanPhaseSp : List Char := "/gsd-plan-phase ".data
def sSkipDirective : List Char := "<!-- gsd:skip-discuss -->".data
def sUseDirective : List Char := "<!-- gsd:use-discuss -->".data
def sNoChainDirective : List Char := "<!-- gsd:no-chain -->".data
def sAssistant : List Char := "assistant".data
def sText : List Char := "text".data

/-- The deny list of `shouldAutoChain` (`skipCommands` in the source). -/
def skipCommands : List (List Char) :=
  ["/gsd-verify-work".data, "/gsd-new-project".data, "/gsd-new-milestone".data]

/- Basic string scanning helpers. -/

/-- Consume the literal `pat` from the front of `cs`; return the rest. -/
def dropLit : List Char → List Char → Option (List Char)
  | [], cs => some cs
  | _ :: _, [] => none
  | p :: ps, c :: cs => if c == p then dropLit ps cs else none

/-- Case-insensitive variant of `dropLit` (per-character `toLower`). -/
def dropLitCI : List Char → List Char → Option (List Char)
  | [], cs => some cs
  | _ :: _, [] => none
  | p :: ps, c :: cs => if c.toLower == p.toLower then dropLitCI ps cs else none

/-- `pat` is a prefix of `cs` (JavaScript `startsWith`). -/
def isPrefixL (pat cs : List Char) : Bool :=
  (dropLit pat cs).isSome

/-- `cs` contains `pat` as a substring (JavaScript `includes`). -/
def containsSub (pat : List Char) : List Char → Bool
  | [] => isPrefixL pat []
  | c :: rest => isPrefixL pat (c :: rest) || containsSub pat rest

/-- Index of the first occurrence of `pat` (JavaScript `indexOf`;
    `none` models `-1`). -/
def indexOfL (pat : List Char) : List Char → Option Nat
  | [] => if isPrefixL pat [] then some 0 else none
  | c :: rest =>
    if isPrefixL pat (c :: rest) then some 0
    else (indexOfL pat rest).map (· + 1)

/-- JavaScript `String.prototype.trim`. -/
def jsTrim (cs : List Char) : List Char :=
  ((cs.dropWhile isJsWs).reverse.dropWhile isJsWs).reverse

/- ------------------------------------------------------------------ -/
/-  extractNextCommand: the "Next Up" anchor patterns (lines 108-113). -/
/- ------------------------------------------------------------------ -/

/-- The lookahead `(?=\n(?:##|━|Also available)|$)` closing the first
    three anchor patterns. -/
def look1 : List Char → Bool
  | [] => true
  | c :: rest =>
    c == '\n' &&
      (isPrefixL sHashHash rest || isPrefixL sHeavyLine rest ||
       isPrefixL sAlsoAvailable rest)

/-- The lookahead `(?=\n\n|\n(?:##|━)|$)` of the fourth anchor pattern. -/
def look4 : List Char → Bool
  | [] => true
  | c :: rest =>
    c == '\n' &&
      (isPrefixL sLf rest || isPrefixL sHashHash rest ||
       isPrefixL sHeavyLine rest)

/-- Number of characters the lazy `[\s\S]*?` consumes before the
    lookahead `look` first holds (`look [] = true` for both lookaheads
    used, so this is total and a match always completes). -/
def lazyLen (look : List Char → Bool) : List Char → Nat
  | [] => 0
  | c :: rest => if look (c :: rest) then 0 else lazyLen look rest + 1

/-- `[►▶]\s*Next Up` at the current position.  `\s*` is greedy; since
    `N` is not a whitespace character, backtracking it can never help,
    so maximal munch is exact. -/
def arrowNextUp : List Char → Option (List Char)
  | [] => none
  | c :: rest =>
    if c == '►' || c == '▶' then dropLit sNextUp (rest.dropWhile isJsWs)
    else none

/-- `>\s*Next Up` at the current position (same argument as above). -/
def gtNextUp : List Char → Option (List Char)
  | [] => none
  | c :: rest =>
    if c == '>' then dropLit sNextUp (rest.dropWhile isJsWs)
    else none

/-- Head of anchor pattern 1, `(?:##\s*)?[►▶]\s*Next Up`: the optional
    group is greedy, and on its failure the engine retries without it at
    the same start position. -/
def p1Head (cs : List Char) : Option (List Char) :=
  match dropLit sHashHash cs with
  | some r => arrowNextUp (r.dropWhile isJsWs) <|> arrowNextUp cs
  | none => arrowNextUp cs

/-- Head of anchor pattern 2, `(?:##\s*)?>\s*Next Up`. -/
def p2Head (cs : List Char) : Option (List Char) :=
  match dropLit sHashHash cs with
  | some r => gtNextUp (r.dropWhile isJsWs) <|> gtNextUp cs
  | none => gtNextUp cs

/-- Head of anchor pattern 3, `##\s*Next Up`. -/
def p3Head (cs : List Char) : Option (List Char) :=
  match dropLit sHashHash cs with
  | some r => dropLit sNextUp (r.dropWhile isJsWs)
  | none => none

/-- `[:\s]*\n` of anchor pattern 4.  The greedy class run is backtracked
    until the next character is a LF; since LF itself belongs to the
    class, this succeeds exactly when the maximal class run contains a
    LF, and the greedy choice consumes through the last LF of the run. -/
def p4Mid (cs : List Char) : Option (List Char) :=
  let run := cs.takeWhile (fun c => c == ':' || isJsWs c)
  let tail := cs.drop run.length
  let ra := run.reverse.takeWhile (fun c => !(c == '\n'))
  if ra.length == run.length then none
  else some (ra.reverse ++ tail)

/-- Head of anchor pattern 4, `Next Up[:\s]*\n` with the `i` flag. -/
def p4Head (cs : List Char) : Option (List Char) :=
  match dropLitCI sNextUp cs with
  | some r => p4Mid r
  | none => none

/-- Full anchor pattern at one position: the head `head` followed by
    `[\s\S]*?` up to the lookahead `look`; returns the match length. -/
def anchorMatchAt (head : List Char → Option (List Char))
    (look : List Char → Bool) (cs : List Char) : Option Nat :=
  (head cs).map (fun rest => (cs.length - rest.length) + lazyLen look rest)

/-- Leftmost match of an unanchored pattern (`String.prototype.match`
    without the `g` flag): try every start position left to right and
    return the matched text of the first success. -/
def findFirstMatchFrom (m : List Char → Option Nat) :
    List Char → Option (List Char)
  | [] => (m []).map (fun _ => ([] : List Char))
  | c :: rest =>
    match m (c :: rest) with
    | some n => some ((c :: rest).take n)
    | none => findFirstMatchFrom m rest

/-- The `nextUpPatterns` loop (lines 108-122): try the four anchor
    patterns in order, stop at the first that matches anywhere; the
    result is the matched section text (`nextUpMatch[0]`). -/
def findNextUpSection (content : List Char) : Option (List Char) :=
  findFirstMatchFrom (anchorMatchAt p1Head look1) content <|>
  findFirstMatchFrom (anchorMatchAt p2Head look1) content <|>
  findFirstMatchFrom (anchorMatchAt p3Head look1) content <|>
  findFirstMatchFrom (anchorMatchAt p4Head look4) content

/- ------------------------------------------------------------------ -/
/-  extractNextCommand: command sub-patterns in the section            -/
/-  (lines 141-156).  Each matcher returns capture group 1.            -/
/- ------------------------------------------------------------------ -/

/-- Sub-pattern `backtick`: `` `(\/gsd[a-z-]+(?:\s+[^`]+)?)` `` at one
    position.  None of `[a-z-]`, `\s`, `` [^`] `` matches a backtick, so
    the closing delimiter is the first backtick after the opening one,
    and the group must cover exactly the text `T` between them:
    after the maximal `[a-z-]+` run the leftover `U` is matched by the
    optional `\s+[^`]+` iff `U` is empty, or starts with whitespace and
    has at least two characters. -/
def s1MatchAt : List Char → Option (List Char)
  | [] => none
  | c :: r1 =>
    if c == '`' then
      match dropLit sSlashGsd r1 with
      | some rest0 =>
        let T := rest0.takeWhile isNotBacktick
        if T.length == rest0.length then none
        else
          let run := T.takeWhile isGsdBody
          if run.length == 0 then none
          else
            let U := T.drop run.length
            match U with
            | [] => some (sSlashGsd ++ T)
            | u :: us => if isJsWs u && !us.isEmpty then some (sSlashGsd ++ T) else none
      | none => none
    else none

/-- The greedy star `(?:\s+\S+)*` with nothing after it: iterate
    maximal whitespace run + maximal non-whitespace run while both are
    nonempty; returns the consumed characters. -/
def starWsNonWs (cs : List Char) : List Char :=
  let w := cs.takeWhile isJsWs
  if hw : w.length = 0 then []
  else
    let after := cs.drop w.length
    let nw := after.takeWhile (fun c => !(isJsWs c))
    if hn : nw.length = 0 then []
    else w ++ nw ++ starWsNonWs (after.drop nw.length)
  termination_by cs.length
  decreasing_by
    simp only [after, w, nw, List.length_drop] at hw hn ⊢
    have h1 : (List.takeWhile isJsWs cs).length ≤ cs.length :=
      cs.takeWhile_prefix isJsWs |>.length_le
    omega

/-- Group core `(\/gsd[a-z-]+(?:\s+\S+)*)` at one position (used by the
    `line-start` and `colon-format` sub-patterns). -/
def gsdCore2At (cs : List Char) : Option (List Char) :=
  match dropLit sSlashGsd cs with
  | some r =>
    let run := r.takeWhile isGsdBody
    if run.length == 0 then none
    else some (sSlashGsd ++ run ++ starWsNonWs (r.drop run.length))
  | none => none

/-- Sub-pattern `line-start`: `/^(\/gsd[a-z-]+(?:\s+\S+)*)/m`.  The
    flag `atStart` records whether the current position follows the
    string start or a line terminator. -/
def s2Scan (atStart : Bool) : List Char → Option (List Char)
  | [] => none
  | c :: rest =>
    if atStart then
      match gsdCore2At (c :: rest) with
      | some g => some g
      | none => s2Scan (isLineTerm c) rest
    else s2Scan (isLineTerm c) rest

/-- Sub-pattern `anywhere-num`: `(\/gsd[a-z-]+(?:\s+\d+)?)` at one
    position.  After the maximal `[a-z-]+` run, the optional group
    takes the maximal `\s+` run followed by a nonempty maximal `\d+`
    run, or is skipped (whitespace is never a digit, so backtracking
    `\s+` can never help). -/
def gsdCore3At (cs : List Char) : Option (List Char) :=
  match dropLit sSlashGsd cs with
  | some r =>
    let run := r.takeWhile isGsdBody
    if run.length == 0 then none
    else
      let rest := r.drop run.length
      let w := rest.takeWhile isJsWs
      let d := (rest.drop w.length).takeWhile isDigitChar
      if w.length == 0 || d.length == 0 then some (sSlashGsd ++ run)
      else some (sSlashGsd ++ run ++ w ++ d)
  | none => none

/-- Sub-pattern `colon-format`: `:\s*(\/gsd[a-z-]+(?:\s+\S+)*)`. -/
def s4MatchAt : List Char → Option (List Char)
  | [] => none
  | c :: rest =>
    if c == ':' then gsdCore2At (rest.dropWhile isJsWs) else none

/-- Largest `w` with `1 ≤ w ≤ bound` such that `rest` has a character
    at index `w` that is not a LF (greedy backtracking of `\s+` before
    `[^\n]+`). -/
def s5FindW (rest : List Char) : Nat → Option Nat
  | 0 => none
  | w + 1 =>
    match rest.get? (w + 1) with
    | some c => if isNotLf c then some (w + 1) else s5FindW rest w
    | none => s5FindW rest w

/-- The optional `(?:\s+[^\n]+)?` of the `anywhere` sub-pattern:
    returns the consumed characters (possibly none).  `\s` includes LF
    but `[^\n]` excludes it, so the greedy choice is the largest
    whitespace-prefix length `w` whose next character exists and is not
    a LF, followed by the maximal `[^\n]+` run. -/
def s5Opt (rest : List Char) : List Char :=
  match s5FindW rest (rest.takeWhile isJsWs).length with
  | some w => rest.take w ++ (rest.drop w).takeWhile isNotLf
  | none => []

/-- Sub-pattern `anywhere`: `(\/gsd[a-z0-9-]+(?:\s+[^\n]+)?)` at one
    position. -/
def gsdCore5At (cs : List Char) : Option (List Char) :=
  match dropLit sSlashGsd cs with
  | some r =>
    let run := r.takeWhile isGsdBody5
    if run.length == 0 then none
    else some (sSlashGsd ++ run ++ s5Opt (r.drop run.length))
  | none => none

/-- Leftmost match of a sub-pattern matcher over all start positions. -/
def scanFirst (m : List Char → Option (List Char)) :
    List Char → Option (List Char)
  | [] => m []
  | c :: rest =>
    match m (c :: rest) with
    | some g => some g
    | none => scanFirst m rest

/-- The `patterns` loop over the section (lines 141-156): first match
    of the five sub-patterns, in source order; yields `match[1]`. -/
def findCommandInSection (sec : List Char) : Option (List Char) :=
  scanFirst s1MatchAt sec <|>
  s2Scan true sec <|>
  scanFirst gsdCore3At sec <|>
  scanFirst s4MatchAt sec <|>
  scanFirst gsdCore5At sec

/-- The separator regex `\s+—\s+` at one position (used by `split`):
    maximal whitespace run, an em-dash, then at least one whitespace
    character (an em-dash is not whitespace, so maximal munch is
    exact). -/
def emDashSepAt (ds : List Char) : Bool :=
  let w := ds.takeWhile isJsWs
  if w.length == 0 then false
  else
    match ds.drop w.length with
    | c :: t => c == '—' && !(t.takeWhile isJsWs).length == 0
    | [] => false

/-- First segment of `split(/\s+—\s+/)`: the prefix before the leftmost
    separator match (the whole string if none). -/
def splitEmDashFirst : List Char → List Char
  | [] => []
  | c :: rest =>
    if emDashSepAt (c :: rest) then []
    else c :: splitEmDashFirst rest

/-- Post-processing of a raw sub-pattern capture (line 152):
    `match[1].trim().split(/\s+—\s+/)[0].trim()`. -/
def stripExplanation (cs : List Char) : List Char :=
  jsTrim (splitEmDashFirst (jsTrim cs))

/-- The fallback regex `(\/gsd[a-z0-9-]+(?:\s+\d+)?)` with the `i`
    flag, at one position; the capture keeps the original characters. -/
def gsdFallbackAt (cs : List Char) : Option (List Char) :=
  match dropLitCI sSlashGsd cs with
  | some r =>
    let run := r.takeWhile isGsdBody5CI
    if run.length == 0 then none
    else
      let pre := cs.take (cs.length - r.length)
      let rest := r.drop run.length
      let w := rest.takeWhile isJsWs
      let d := (rest.drop w.length).takeWhile isDigitChar
      if w.length == 0 || d.length == 0 then some (pre ++ run)
      else some (pre ++ run ++ w ++ d)
  | none => none

/-- The last-resort scan over the whole content (lines 158-170): find
    any command-shaped token anywhere, then accept it only if the first
    occurrence of its text lies strictly after the first
    (case-insensitive) occurrence of "next up" and within 300
    characters of it. -/
def lastResortScan (content : List Char) : Option (List Char) :=
  match scanFirst gsdFallbackAt content with
  | some tok =>
    match indexOfL sNextUpLower (content.map Char.toLower), indexOfL tok content with
    | some nextUpIdx, some cmdIdx =>
      if nextUpIdx < cmdIdx && cmdIdx - nextUpIdx < 300 then some tok else none
    | _, _ => none
  | none => none

/-- `extractNextCommand` (lines 100-174): anchor-section search, then
    the sub-pattern loop with trailing-explanation stripping, then the
    proximity-gated last-resort scan. -/
def extractNextCommand (content : List Char) : Option (List Char) :=
  if content.isEmpty then none
  else
    match findNextUpSection content with
    | none => none
    | some sec =>
      match findCommandInSection sec with
      | some raw => some (stripExplanation raw)
      | none => lastResortScan content

/- ------------------------------------------------------------------ -/
/-  Configuration (lines 34-98).                                       -/
/- ------------------------------------------------------------------ -/

/-- `PluginConfig` (lines 34-39). -/
structure PluginConfig where
  autoChain : Bool
  autoChainDelay : Nat
  confirmBeforeChain : Bool
  skipDiscuss : Bool
deriving DecidableEq, Repr

/-- The hard-coded defaults of `loadConfig` (lines 42-47). -/
def defaults : PluginConfig :=
  { autoChain := true, autoChainDelay := 1000,
    confirmBeforeChain := false, skipDiscuss := false }

/-- A parsed global configuration file: JSON.parse never yields
    `undefined`, so each recognized key either overrides its default or
    is absent. -/
structure GlobalFileJson where
  autoChain : Option Bool
  autoChainDelay : Option Nat
  confirmBeforeChain : Option Bool
  skipDiscuss : Option Bool
deriving DecidableEq, Repr

/-- The spread merge `{ ...defaults, ...parsed }` (line 52). -/
def mergeConfig (d : PluginConfig) (j : GlobalFileJson) : PluginConfig :=
  { autoChain := j.autoChain.getD d.autoChain,
    autoChainDelay := j.autoChainDelay.getD d.autoChainDelay,
    confirmBeforeChain := j.confirmBeforeChain.getD d.confirmBeforeChain,
    skipDiscuss := j.skipDiscuss.getD d.skipDiscuss }

/-- File-system view of the global configuration file: whether it
    exists, whether reading it throws, and its parse result (`none`
    models a `JSON.parse` failure). -/
structure GlobalEnv where
  fileExists : Bool
  readFails : Bool
  parsed : Option GlobalFileJson
deriving DecidableEq, Repr

/-- `loadConfig` (lines 41-56): missing file, read error and parse
    error all fall back to the defaults (the try/catch swallows the
    latter two). -/
def loadConfig (env : GlobalEnv) : PluginConfig :=
  if !env.fileExists then defaults
  else if env.readFails then defaults
  else
    match env.parsed with
    | none => defaults
    | some j => mergeConfig defaults j

/-- A parsed project configuration file `.planning/config.json`:
    the nested `autoChain.skipDiscuss` key and the flat `skipDiscuss`
    key. -/
structure ProjectFileJson where
  autoChainSkipDiscuss : Option Bool
  skipDiscuss : Option Bool
deriving DecidableEq, Repr

/-- File-system view of the project configuration file. -/
structure ProjectEnv where
  fileExists : Bool
  readFails : Bool
  parsed : Option ProjectFileJson
deriving DecidableEq, Repr

/-- `loadProjectConfig` (lines 58-75): returns the nested key if
    present, else the flat key; missing file, read error and parse
    error all yield "no project value". -/
def loadProjectConfig (env : ProjectEnv) : Option Bool :=
  if !env.fileExists then none
  else if env.readFails then none
  else
    match env.parsed with
    | none => none
    | some j =>
      match j.autoChainSkipDiscuss with
      | some b => some b
      | none => j.skipDiscuss

/-- `getSkipDiscuss` (lines 77-98): inline directive (skip checked
    before use), then project config, then the global config value. -/
def getSkipDiscuss (config : PluginConfig) (penv : ProjectEnv)
    (content : List Char) : Bool :=
  if containsSub sSkipDirective content then true
  else if containsSub sUseDirective content then false
  else
    match loadProjectConfig penv with
    | some b => b
    | none => config.skipDiscuss

/- ------------------------------------------------------------------ -/
/-  Eligibility and rewrite (lines 176-182, 289-296).                  -/
/- ------------------------------------------------------------------ -/

/-- `shouldAutoChain` (lines 176-182). -/
def shouldAutoChain (command content : List Char) : Bool :=
  if command.isEmpty || containsSub sNoChainDirective content then false
  else !(skipCommands.any (fun skip => isPrefixL skip command))

/-- JavaScript `String.prototype.replace` with a string pattern:
    replace the first occurrence only. -/
def replaceFirst (cs pat repl : List Char) : List Char :=
  match indexOfL pat cs with
  | some i => cs.take i ++ repl ++ cs.drop (i + pat.length)
  | none => cs

/-- The skip-discuss rewrite in the `session.idle` handler
    (lines 292-296): if the flag is set and the command starts with
    `/gsd-discuss-phase`, strip that prefix, trim the remainder, and
    re-prefix with `/gsd-plan-phase `. -/
def rewriteSkipDiscuss (skipDiscuss : Bool) (cmd : List Char) : List Char :=
  if skipDiscuss && isPrefixL sGsdDiscussPhase cmd then
    let phaseNum := jsTrim (replaceFirst cmd sGsdDiscussPhase [])
    jsTrim (sGsdPlanPhaseSp ++ phaseNum)
  else cmd

/- ------------------------------------------------------------------ -/
/-  Pending-handoff store (lines 184-201).                             -/
/- ------------------------------------------------------------------ -/

/-- State of `~/.cache/opencode/gsd-pending-command.json`: missing,
    holding a well-formed `{command, timestamp}` record, or holding
    text that `JSON.parse` rejects. -/
inductive PendingState where
  | absent : PendingState
  | record (cmd : List Char) (timestamp : Int) : PendingState
  | malformed : PendingState
deriving DecidableEq, Repr

/-- Fault view of the pending file's primitive operations. -/
structure PendingEnv where
  readFails : Bool
  unlinkFails : Bool
deriving DecidableEq, Repr

/-- A fault-free pending-file environment. -/
def reliableFs : PendingEnv := { readFails := false, unlinkFails := false }

/-- `getPendingCommand` (lines 190-201): missing file yields `null`;
    the whole read/parse/unlink sequence is inside try/catch, so a read
    error or parse error yields `null` with the file untouched (parse
    throws before `unlinkSync` runs), and an unlink error yields `null`
    with the file still present; otherwise the file is deleted and the
    command is returned unless the record is older than 5 minutes.
    Returns the delivered value and the file state after the call. -/
def getPendingCommand (env : PendingEnv) (s : PendingState) (now : Int) :
    Option (List Char) × PendingState :=
  match s with
  | .absent => (none, s)
  | .malformed => (none, s)
  | .record c t =>
    if env.readFails then (none, s)
    else if env.unlinkFails then (none, s)
    else if now - t > 5 * 60 * 1000 then (none, .absent)
    else (some c, .absent)

/-- Result of a JavaScript call that may throw; the payload is the
    world state at the moment of the throw. -/
inductive JsResult (α : Type) where
  | ok (a : α) : JsResult α
  | thrown (a : α) : JsResult α
deriving DecidableEq, Repr

/-- Fault view of the cache directory and the pending-file write. -/
structure StoreEnv where
  cacheDirExists : Bool
  mkdirFails : Bool
  writeFails : Bool
deriving DecidableEq, Repr

/-- `storePendingCommand` (lines 184-188): `mkdirSync` (when the cache
    directory is missing) and `writeFileSync` are *not* wrapped in
    try/catch, so either failure throws to the caller. -/
def storePendingCommand (env : StoreEnv) (s : PendingState)
    (cmd : List Char) (now : Int) : JsResult PendingState :=
  if !env.cacheDirExists && env.mkdirFails then .thrown s
  else if env.writeFails then .thrown s
  else .ok (.record cmd now)

/- ------------------------------------------------------------------ -/
/-  Event handlers and plugin entry (lines 203-367).                   -/
/- ------------------------------------------------------------------ -/

/-- Mutable world the handlers touch: the pending file and the
    human-pickup input file `gsd-auto-input.txt`. -/
structure World where
  pending : PendingState
  inputFile : Option (List Char)
deriving DecidableEq, Repr

/-- Fault view of the `session.created` handler's file operations. -/
structure CreatedEnv where
  penv : PendingEnv
  inputWriteFails : Bool
deriving DecidableEq, Repr

/-- The `session.created` branch (lines 216-226): consume the pending
    command; if one is delivered, write it to the input file — that
    `writeFileSync` is *not* wrapped, so its failure throws out of the
    event handler. -/
def sessionCreatedHandler (env : CreatedEnv) (w : World) (now : Int) :
    JsResult World :=
  match getPendingCommand env.penv w.pending now with
  | (some cmd, p) =>
    if env.inputWriteFails then .thrown { w with pending := p }
    else .ok { pending := p, inputFile := some cmd }
  | (none, p) => .ok { w with pending := p }

/-- One content part of a message (`{ type, text }`). -/
structure MsgPart where
  ptype : List Char
  ptext : List Char
deriving DecidableEq, Repr

/-- One message (`{ info: { role }, parts }`). -/
structure Msg where
  role : List Char
  parts : List MsgPart
deriving DecidableEq, Repr

/-- Concatenation of the text parts of the last assistant message
    (lines 268-274): `content += part.text + '\n'` for every part with
    type "text" and truthy (nonempty) text. -/
def concatAssistantText (parts : List MsgPart) : List Char :=
  parts.foldl
    (fun acc p =>
      if p.ptype == sText && !p.ptext.isEmpty then acc ++ p.ptext ++ sLf
      else acc)
    []

/-- Host calls issued by the `session.idle` handler, in order. -/
inductive HostCall where
  | tuiExecuteNew : HostCall
  | tuiAppendPrompt (text : List Char) : HostCall
  | tuiSubmitPrompt : HostCall
  | notify (cmd : List Char) : HostCall
deriving DecidableEq, Repr

/-- Environment of one `session.idle` delivery: event payload, host
    collaborators and file-system faults. -/
structure IdleEnv where
  sessionId : Option (List Char)
  sessionAvailable : Bool
  fetchFails : Bool
  messages : List Msg
  penv : ProjectEnv
  tuiExecFails : Bool
  tuiAppendFails : Bool
  tuiSubmitFails : Bool
  senv : StoreEnv
  notifyFails : Bool
  now : Int
deriving DecidableEq, Repr

/-- Result of one event delivery: the world after it, the host calls
    issued, and whether an error escaped the handler. -/
structure HandlerRes where
  world : World
  calls : List HostCall
  threw : Bool
deriving DecidableEq, Repr

/-- A delivery with no effect at all. -/
def idleNoop (w : World) : HandlerRes :=
  { world := w, calls := [], threw := false }

/-- The three-step TUI auto-execute attempt (lines 315-341), wrapped in
    try/catch: returns whether it fully succeeded and the host calls
    issued (including the failing one). -/
def tryAutoExecute (env : IdleEnv) (cmd : List Char) :
    Bool × List HostCall :=
  if env.tuiExecFails then (false, [.tuiExecuteNew])
  else if env.tuiAppendFails then
    (false, [.tuiExecuteNew, .tuiAppendPrompt cmd])
  else if env.tuiSubmitFails then
    (false, [.tuiExecuteNew, .tuiAppendPrompt cmd, .tuiSubmitPrompt])
  else (true, [.tuiExecuteNew, .tuiAppendPrompt cmd, .tuiSubmitPrompt])

/-- The deferral path (lines 349-361): `storePendingCommand` is *not*
    wrapped, so its throw escapes the handler (and skips the
    notification); the notification itself is try/caught. -/
def deferCommand (env : IdleEnv) (w : World) (cmd : List Char)
    (calls : List HostCall) : HandlerRes :=
  match storePendingCommand env.senv w.pending cmd env.now with
  | .thrown p => { world := { w with pending := p }, calls := calls, threw := true }
  | .ok p =>
    { world := { w with pending := p },
      calls := calls ++ [.notify cmd], threw := false }

/-- The `session.idle` branch (lines 229-364). -/
def idleHandler (cfg : PluginConfig) (env : IdleEnv) (w : World) :
    HandlerRes :=
  match env.sessionId with
  | none => idleNoop w
  | some _ =>
    if !env.sessionAvailable then idleNoop w
    else if env.fetchFails then idleNoop w
    else if env.messages.isEmpty then idleNoop w
    else
      match env.messages.reverse.find? (fun m => m.role == sAssistant) with
      | none => idleNoop w
      | some m =>
        let content := concatAssistantText m.parts
        if content.isEmpty then idleNoop w
        else
          match extractNextCommand content with
          | none => idleNoop w
          | some cmd0 =>
            let cmd := rewriteSkipDiscuss (getSkipDiscuss cfg env.penv content) cmd0
            if !shouldAutoChain cmd content then idleNoop w
            else if cfg.confirmBeforeChain then idleNoop w
            else
              match tryAutoExecute env cmd with
              | (true, calls) => { world := w, calls := calls, threw := false }
              | (false, calls) => deferCommand env w cmd calls

/-- Kinds of inbound host events. -/
inductive EventKind where
  | created : EventKind
  | idle : EventKind
  | other : EventKind
deriving DecidableEq, Repr

/-- Plugin initialization `GsdAutoChain` (lines 203-211): when the
    resolved global configuration has `autoChain` false, the returned
    hooks object is empty (`return {}`), i.e. no event handler is
    registered at all — modeled as `none`. -/
def gsdAutoChainInit (genv : GlobalEnv) : Option PluginConfig :=
  let config := loadConfig genv
  if !config.autoChain then none else some config

/-- Host-side event delivery: with no registered handler nothing runs;
    otherwise the event dispatches on its type (lines 214-364). -/
def deliverEvent (plugin : Option PluginConfig) (ev : EventKind)
    (cenv : CreatedEnv) (ienv : IdleEnv) (w : World) (now : Int) :
    HandlerRes :=
  match plugin with
  | none => idleNoop w
  | some cfg =>
    match ev with
    | .created =>
      match sessionCreatedHandler cenv w now with
      | .ok w2 => { world := w2, calls := [], threw := false }
      | .thrown w2 => { world := w2, calls := [], threw := true }
    | .idle => idleHandler cfg ienv w
    | .other => idleNoop w

/-- Whether a call result is an uncaught throw. -/
def JsResult.isThrown {α : Type} : JsResult α → Bool
  | .ok _ => false
  | .thrown _ => true

/- Concrete texts used to instantiate the theorems. -/

/-- Scenario A of the specification. -/
def scenarioAText : List Char :=
  "## ▶ Next Up\n`/gsd-execute-phase 08` — run it".data

/-- A text whose only command token sits 300 characters after the
    anchor phrase but still inside the matched anchor section. -/
def proximityCexText : List Char :=
  "▶ Next Up\n".data ++ List.replicate 292 'x' ++ "/gsd-plan-phase 3".data

/-- A text whose anchor section contains no command token, while a
    token appears shortly after the section. -/
def fallbackDemoText : List Char :=
  "▶ Next Up\nnothing here\n## Done\n/gsd-plan-phase 2".data

/-- An idle-event environment that reaches the deferral path (the TUI
    execute call fails) with a failing pending-file write. -/
def demoIdleEnvThrow : IdleEnv :=
  { sessionId := some "s1".data
    sessionAvailable := true
    fetchFails := false
    messages := [{ role := sAssistant,
                   parts := [{ ptype := sText,
                               ptext := "## ▶ Next Up\n`/gsd-plan-phase 2`".data }] }]
    penv := { fileExists := false, readFails := false, parsed := none }
    tuiExecFails := true
    tuiAppendFails := false
    tuiSubmitFails := false
    senv := { cacheDirExists := true, mkdirFails := false, writeFails := true }
    notifyFails := false
    now := 0 }

/-- An arbitrary idle-event environment used for inert-plugin checks. -/
def demoIdleEnvQuiet : IdleEnv :=
  { sessionId := some "s1".data
    sessionAvailable := true
    fetchFails := false
    messages := []
    penv := { fileExists := false, readFails := false, parsed := none }
    tuiExecFails := false
    tuiAppendFails := false
    tuiSubmitFails := false
    senv := { cacheDirExists := true, mkdirFails := false, writeFails := false }
    notifyFails := false
    now := 0 }

/-- A world holding a live (well-formed) pending record. -/
def demoWorldWithPending : World :=
  { pending := PendingState.record "/gsd-plan-phase 2".data 0, inputFile := none }

/-- A global configuration file setting `skipDiscuss` to true. -/
def demoGlobalTrue : GlobalEnv :=
  { fileExists := true, readFails := false,
    parsed := some { autoChain := none, autoChainDelay := none,
                     confirmBeforeChain := none, skipDiscuss := some true } }

/-- A project configuration file setting `skipDiscuss` to false. -/
def demoProjectFalse : ProjectEnv :=
  { fileExists := true, readFails := false,
    parsed := some { autoChainSkipDiscuss := none, skipDiscuss := some false } }

/-- A missing project configuration file. -/
def demoProjectMissing : ProjectEnv :=
  { fileExists := false, readFails := false, parsed := none }

/- ------------------------------------------------------------------ -/
/-  Theorems                                                           -/
/- ------------------------------------------------------------------ -/

/-- Claim C6: reading the pending-handoff store always removes the
    record — after one read (with working storage) the store holds no
    record, and a second read in a row returns absent, for every prior
    state of the store and any read times. -/
theorem pendingRead_consumes (s : PendingState) (t1 t2 : Int) :
    (getPendingCommand reliableFs
        (getPendingCommand reliableFs s t1).2 t2).1 = none ∧
    ∀ c t, (getPendingCommand reliableFs s t1).2 ≠ PendingState.record c t := by
  cases s with
  | absent => simp [getPendingCommand, reliableFs]
  | malformed => simp [getPendingCommand, reliableFs]
  | record c t =>
    simp only [getPendingCommand, reliableFs]
    by_cases h : (300000 : Int) < t1 - t <;> simp [h, getPendingCommand]

/-- Claim C7: a well-formed pending record strictly older than the
    5-minute window is not delivered (though the read still deletes
    it), and a record within the window is delivered. -/
theorem pendingRead_expiry (c : List Char) (t now : Int) :
    (now - t > 5 * 60 * 1000 →
      getPendingCommand reliableFs (.record c t) now =
        (none, PendingState.absent)) ∧
    (now - t ≤ 5 * 60 * 1000 →
      getPendingCommand reliableFs (.record c t) now =
        (some c, PendingState.absent)) := by
  constructor <;> intro h <;> simp [getPendingCommand, reliableFs, h] <;> omega

/-- Witness for C7 at a concrete record: expired at 300001 ms age, and
    delivered at exactly 300000 ms age. -/
theorem pendingRead_expiry_witness :
    getPendingCommand reliableFs (.record "/gsd-plan-phase 2".data 0) 300001 =
      (none, PendingState.absent) ∧
    getPendingCommand reliableFs (.record "/gsd-plan-phase 2".data 0) 300000 =
      (some "/gsd-plan-phase 2".data, PendingState.absent) :=
  ⟨(pendingRead_expiry _ 0 300001).1 (by decide),
   (pendingRead_expiry _ 0 300000).2 (by decide)⟩

/-- Claim C8: eligibility holds exactly for a nonempty command whose
    text does not contain the no-chain directive and that does not
    prefix-match any of the three deny-listed commands. -/
theorem shouldAutoChain_true_iff (cmd content : List Char) :
    shouldAutoChain cmd content = true ↔
      cmd ≠ [] ∧ containsSub sNoChainDirective content = false ∧
      isPrefixL "/gsd-verify-work".data cmd = false ∧
      isPrefixL "/gsd-new-project".data cmd = false ∧
      isPrefixL "/gsd-new-milestone".data cmd = false := by
  simp only [shouldAutoChain, skipCommands]
  constructor
  · intro h
    by_cases h1 : cmd.isEmpty || containsSub sNoChainDirective content
    · simp [h1] at h
    · simp [h1] at h ⊢
      simp only [Bool.or_eq_true, List.isEmpty_iff] at h1
      push_neg at h1
      refine ⟨h1.1, by simpa using h1.2, ?_, ?_, ?_⟩ <;> simp [h]
  · rintro ⟨h1, h2, h3, h4, h5⟩
    have : cmd.isEmpty = false := by simpa [List.isEmpty_iff] using h1
    simp [this, h2, h3, h4, h5]

/-- Witness for C8 at concrete inputs. -/
theorem shouldAutoChain_true_iff_witness :
    shouldAutoChain "/gsd-plan-phase 2".data "some text".data = true :=
  (shouldAutoChain_true_iff _ _).mpr (by refine ⟨by decide, by decide, by decide, by decide, by decide⟩)

/-- Claim C10: when the resolved global configuration disables
    auto-chaining, the plugin registers no handler, so delivering any
    event leaves the world (pending record and input file) untouched,
    issues no host call, and throws nothing. -/
theorem disabled_plugin_inert (genv : GlobalEnv) (ev : EventKind)
    (cenv : CreatedEnv) (ienv : IdleEnv) (w : World) (now : Int)
    (h : (loadConfig genv).autoChain = false) :
    deliverEvent (gsdAutoChainInit genv) ev cenv ienv w now =
      { world := w, calls := [], threw := false } := by
  simp [deliverEvent, gsdAutoChainInit, h, idleNoop]

/-- Witness for C10: with `autoChain` resolved false from the global
    file, a `session.created` delivery leaves a live pending record
    untouched and performs nothing. -/
theorem disabled_plugin_inert_witness :
    deliverEvent
        (gsdAutoChainInit
          { fileExists := true, readFails := false,
            parsed := some { autoChain := some false, autoChainDelay := none,
                             confirmBeforeChain := none, skipDiscuss := none } })
        EventKind.created
        { penv := reliableFs, inputWriteFails := false }
        demoIdleEnvQuiet demoWorldWithPending 1000 =
      { world := demoWorldWithPending, calls := [], threw := false } :=
  disabled_plugin_inert _ _ _ _ _ _ (by decide)

/-- `storePendingCommand` throws exactly on a directory-creation or
    file-write failure (helper for the storage-policy theorem). -/
theorem store_thrown_flags (env : StoreEnv) (s : PendingState)
    (cmd : List Char) (now : Int) (p : PendingState)
    (h : storePendingCommand env s cmd now = .thrown p) :
    ((!env.cacheDirExists && env.mkdirFails) || env.writeFails) = true := by
  unfold storePendingCommand at h
  split at h
  · simp_all
  · split at h <;> simp_all

/-- The deferral path throws only when the pending-file store does
    (helper for the storage-policy theorem). -/
theorem defer_threw_flags (env : IdleEnv) (w : World) (cmd : List Char)
    (calls : List HostCall)
    (h : (deferCommand env w cmd calls).threw = true) :
    ((!env.senv.cacheDirExists && env.senv.mkdirFails) ||
      env.senv.writeFails) = true := by
  unfold deferCommand at h
  cases hst : storePendingCommand env.senv w.pending cmd env.now with
  | thrown p => exact store_thrown_flags _ _ _ _ _ hst
  | ok p => rw [hst] at h; simp at h

/-- Claim C2 (amended): the read-side file operations never raise — a
    `session.created` delivery throws exactly when a pending command is
    delivered and the input-file write fails, and a `session.idle`
    delivery throws only when the unwrapped pending-file store (mkdir
    or write) fails; `storePendingCommand` itself throws exactly on
    those two storage faults. -/
theorem storageErrorPolicy :
    (∀ (senv : StoreEnv) (s : PendingState) (cmd : List Char) (now : Int),
      (storePendingCommand senv s cmd now).isThrown =
        ((!senv.cacheDirExists && senv.mkdirFails) || senv.writeFails)) ∧
    (∀ (cenv : CreatedEnv) (w : World) (now : Int),
      (sessionCreatedHandler cenv w now).isThrown =
        (cenv.inputWriteFails &&
          (getPendingCommand cenv.penv w.pending now).1.isSome)) ∧
    (∀ (cfg : PluginConfig) (ienv : IdleEnv) (w : World),
      (idleHandler cfg ienv w).threw = true →
        ((!ienv.senv.cacheDirExists && ienv.senv.mkdirFails) ||
          ienv.senv.writeFails) = true) := by
  refine ⟨?_, ?_, ?_⟩
  · intro senv s cmd now
    unfold storePendingCommand
    split
    · simp_all [JsResult.isThrown]
    · split <;> simp_all [JsResult.isThrown]
  · intro cenv w now
    rcases hg : getPendingCommand cenv.penv w.pending now with ⟨o, p⟩
    cases o <;> cases hw : cenv.inputWriteFails <;>
      simp [sessionCreatedHandler, hg, hw, JsResult.isThrown]
  · intro cfg ienv w h
    simp only [idleHandler] at h
    repeat' split at h
    all_goals
      first
      | simp [idleNoop] at h
      | simp at h
      | exact defer_threw_flags _ _ _ _ h

/-- Witness for C2 (amended), applying the idle-handler clause at a
    concrete throwing delivery. -/
theorem storageErrorPolicy_witness :
    (idleHandler defaults demoIdleEnvThrow demoWorldWithPending).threw = true ∧
    ((!demoIdleEnvThrow.senv.cacheDirExists &&
        demoIdleEnvThrow.senv.mkdirFails) ||
      demoIdleEnvThrow.senv.writeFails) = true :=
  ⟨by decide,
   storageErrorPolicy.2.2 defaults demoIdleEnvThrow demoWorldWithPending
     (by decide)⟩

/-- Counterexample for C2 as stated: a failing input-file write
    propagates out of the `session.created` handler, and a failing
    pending-file write propagates out of `storePendingCommand`. -/
theorem storageErrorPropagation_cex :
    sessionCreatedHandler
        { penv := reliableFs, inputWriteFails := true }
        demoWorldWithPending 1000 =
      JsResult.thrown { pending := PendingState.absent, inputFile := none } ∧
    storePendingCommand
        { cacheDirExists := true, mkdirFails := false, writeFails := true }
        PendingState.absent "/gsd-plan-phase 2".data 5 =
      JsResult.thrown PendingState.absent := by
  constructor <;> decide

/-- Claim C4: the skip-discuss flag resolves with strict precedence —
    inline skip directive, inline use directive, project file value,
    global configuration value — and the global value itself is the
    file's field when present, else the built-in default `false`. -/
theorem getSkipDiscuss_precedence (genv : GlobalEnv) (penv : ProjectEnv)
    (content : List Char) :
    (containsSub sSkipDirective content = true →
      getSkipDiscuss (loadConfig genv) penv content = true) ∧
    (containsSub sSkipDirective content = false →
     containsSub sUseDirective content = true →
      getSkipDiscuss (loadConfig genv) penv content = false) ∧
    (∀ b, containsSub sSkipDirective content = false →
      containsSub sUseDirective content = false →
      loadProjectConfig penv = some b →
      getSkipDiscuss (loadConfig genv) penv content = b) ∧
    (containsSub sSkipDirective content = false →
     containsSub sUseDirective content = false →
     loadProjectConfig penv = none →
      getSkipDiscuss (loadConfig genv) penv content =
        (loadConfig genv).skipDiscuss) ∧
    (∀ j b, genv.fileExists = true → genv.readFails = false →
      genv.parsed = some j → j.skipDiscuss = some b →
      (loadConfig genv).skipDiscuss = b) ∧
    ((genv.fileExists = false ∨ genv.readFails = true ∨ genv.parsed = none ∨
       (∃ j, genv.parsed = some j ∧ j.skipDiscuss = none)) →
      (loadConfig genv).skipDiscuss = false) := by
  refine ⟨?_, ?_, ?_, ?_, ?_, ?_⟩
  · intro h; simp [getSkipDiscuss, h]
  · intro h1 h2; simp [getSkipDiscuss, h1, h2]
  · intro b h1 h2 h3; simp [getSkipDiscuss, h1, h2, h3]
  · intro h1 h2 h3; simp [getSkipDiscuss, h1, h2, h3]
  · intro j b h1 h2 h3 h4
    simp [loadConfig, h1, h2, h3, mergeConfig, h4]
  · rintro (h | h | h | ⟨j, hj, hjs⟩)
    · simp [loadConfig, h, defaults]
    · cases hf : genv.fileExists <;> simp [loadConfig, hf, h, defaults]
    · cases hf : genv.fileExists <;> cases hr : genv.readFails <;>
        simp [loadConfig, hf, hr, h, defaults]
    · cases hf : genv.fileExists <;> cases hr : genv.readFails <;>
        simp [loadConfig, hf, hr, hj, hjs, defaults, mergeConfig]

/-- Witness for C4 with all four layers set to conflicting values
    (inline skip = true, project = false, global file = true, default =
    false): the inline directive wins; without it the project file
    wins; without that the global file wins. -/
theorem getSkipDiscuss_precedence_witness :
    getSkipDiscuss (loadConfig demoGlobalTrue) demoProjectFalse
      "go <!-- gsd:skip-discuss -->".data = true ∧
    getSkipDiscuss (loadConfig demoGlobalTrue) demoProjectFalse
      "plain text".data = false ∧
    getSkipDiscuss (loadConfig demoGlobalTrue) demoProjectMissing
      "plain text".data = true :=
  ⟨(getSkipDiscuss_precedence demoGlobalTrue demoProjectFalse _).1 (by decide),
   (getSkipDiscuss_precedence demoGlobalTrue demoProjectFalse _).2.2.1 false
     (by decide) (by decide) (by decide),
   by
     have h := (getSkipDiscuss_precedence demoGlobalTrue demoProjectMissing
       "plain text".data).2.2.2.1 (by decide) (by decide) (by decide)
     rw [h]; decide⟩

/-- Claim C1: whenever an anchor section is matched and a command
    sub-pattern matches inside it, `extractNextCommand` returns exactly
    that captured token with the trailing em-dash explanation clause
    stripped (and trimmed). -/
theorem extract_section_token (content sec raw : List Char)
    (h1 : findNextUpSection content = some sec)
    (h2 : findCommandInSection sec = some raw) :
    extractNextCommand content = some (stripExplanation raw) := by
  cases content with
  | nil => rw [show findNextUpSection [] = none from by decide] at h1; cases h1
  | cons c rest =>
    unfold extractNextCommand
    simp only [List.isEmpty_cons, Bool.false_eq_true, if_false]
    rw [h1]
    simp only [h2]

/-- Witness for C1, Scenario A of the specification. -/
theorem extract_scenarioA :
    extractNextCommand scenarioAText = some "/gsd-execute-phase 08".data := by
  have h := extract_section_token scenarioAText scenarioAText
    "/gsd-execute-phase 08".data (by decide) (by decide)
  rw [h]; decide

/-- Claim C3 (amended): when the anchor section is found but no
    sub-pattern matches inside it, extraction falls back to the
    proximity-gated whole-text scan `lastResortScan` (which accepts a
    token only strictly after the anchor phrase and within 300
    characters); in particular when that scan rejects, extraction
    yields no command. -/
theorem fallback_proximity (content sec : List Char)
    (h1 : findNextUpSection content = some sec)
    (h2 : findCommandInSection sec = none) :
    extractNextCommand content = lastResortScan content := by
  cases content with
  | nil => rw [show findNextUpSection [] = none from by decide] at h1; cases h1
  | cons c rest =>
    unfold extractNextCommand
    simp only [List.isEmpty_cons, Bool.false_eq_true, if_false]
    rw [h1]
    simp only [h2]

/-- Witness for C3 (amended): the anchor section of
    `fallbackDemoText` contains no token, and the last-resort scan
    accepts the token 29 characters after the anchor phrase. -/
theorem fallback_proximity_witness :
    extractNextCommand fallbackDemoText = lastResortScan fallbackDemoText ∧
    lastResortScan fallbackDemoText = some "/gsd-plan-phase 2".data :=
  ⟨fallback_proximity fallbackDemoText "▶ Next Up\nnothing here".data
     (by decide) (by decide),
   by decide⟩

/-- Counterexample for C3 as stated: `proximityCexText` contains the
    anchor phrase and its only command token fails the proximity check
    (the last-resort scan rejects it), yet extraction still returns the
    token, because a sub-pattern already matches it inside the (long)
    anchor section. -/
theorem proximity_cex :
    containsSub sNextUpLower (proximityCexText.map Char.toLower) = true ∧
    lastResortScan proximityCexText = none ∧
    extractNextCommand proximityCexText = some "/gsd-plan-phase 3".data := by
  refine ⟨by decide, by decide, by decide⟩

/-- Consuming a literal from itself-plus-rest leaves the rest. -/
theorem dropLit_append (p r : List Char) : dropLit p (p ++ r) = some r := by
  induction p with
  | nil => rfl
  | cons a ps ih => simp [dropLit, ih]

/-- A prefix occurrence is found at index 0 by `indexOfL`. -/
theorem indexOfL_zero (pat cs : List Char) (h : isPrefixL pat cs = true) :
    indexOfL pat cs = some 0 := by
  cases cs <;> simp [indexOfL, h]

/-- A digit is not JavaScript whitespace. -/
theorem digit_not_ws (c : Char) (h : isDigitChar c = true) :
    isJsWs c = false := by
  simp only [isDigitChar, Bool.and_eq_true, Nat.ble_eq] at h
  cases hw : isJsWs c with
  | false => rfl
  | true =>
    exfalso
    simp only [isJsWs, Bool.or_eq_true, Bool.and_eq_true, beq_iff_eq,
      Nat.ble_eq] at hw
    omega

/-- `dropWhile` is the identity on a list none of whose elements
    satisfy the predicate. -/
theorem dropWhile_eq_self_of (p : Char → Bool) (l : List Char)
    (h : ∀ c ∈ l, p c = false) : l.dropWhile p = l := by
  cases l with
  | nil => rfl
  | cons a l => simp [List.dropWhile_cons, h a (List.mem_cons_self a l)]

/-- `jsTrim` is the identity when neither end starts with whitespace. -/
theorem jsTrim_of_ends (l : List Char) (h1 : l.dropWhile isJsWs = l)
    (h2 : l.reverse.dropWhile isJsWs = l.reverse) : jsTrim l = l := by
  unfold jsTrim; rw [h1, h2, List.reverse_reverse]

/-- Claim C5: with the skip flag resolved true, the intermediate-step
    command `/gsd-discuss-phase` followed by a (nonempty, digits-only)
    argument is rewritten to `/gsd-plan-phase` with the argument
    preserved unchanged. -/
theorem rewriteSkipDiscuss_discuss_to_plan (arg : List Char)
    (hne : arg ≠ []) (hdig : ∀ c ∈ arg, isDigitChar c = true) :
    rewriteSkipDiscuss true (sGsdDiscussPhase ++ (' ' :: arg)) =
      sGsdPlanPhaseSp ++ arg := by
  have hnws : ∀ c ∈ arg, isJsWs c = false :=
    fun c hc => digit_not_ws c (hdig c hc)
  have hargd : arg.dropWhile isJsWs = arg := dropWhile_eq_self_of _ _ hnws
  have hargr : arg.reverse.dropWhile isJsWs = arg.reverse :=
    dropWhile_eq_self_of _ _ (fun c hc => hnws c (List.mem_reverse.mp hc))
  have hpre : isPrefixL sGsdDiscussPhase (sGsdDiscussPhase ++ (' ' :: arg)) = true := by
    simp [isPrefixL, dropLit_append]
  have hsp : isJsWs ' ' = true := by decide
  have htrim1 : jsTrim (' ' :: arg) = arg := by
    simp [jsTrim, List.dropWhile_cons, hsp, hargd, hargr]
  have hrepl : replaceFirst (sGsdDiscussPhase ++ (' ' :: arg)) sGsdDiscussPhase [] =
      ' ' :: arg := by
    unfold replaceFirst
    rw [indexOfL_zero _ _ hpre]
    simp [List.drop_left]
  unfold rewriteSkipDiscuss
  rw [hpre]
  simp only [Bool.and_self, if_true]
  rw [hrepl, htrim1]
  have hcons : sGsdPlanPhaseSp ++ arg = '/' :: ("gsd-plan-phase ".data ++ arg) := rfl
  have h1 : (sGsdPlanPhaseSp ++ arg).dropWhile isJsWs = sGsdPlanPhaseSp ++ arg := by
    rw [hcons, List.dropWhile_cons]
    simp [show isJsWs '/' = false from by decide]
  have h2 : (sGsdPlanPhaseSp ++ arg).reverse.dropWhile isJsWs =
      (sGsdPlanPhaseSp ++ arg).reverse := by
    rw [List.reverse_append]
    obtain ⟨b, bs, hb⟩ : ∃ b bs, arg.reverse = b :: bs := by
      cases harg2 : arg.reverse with
      | nil => exact absurd (List.reverse_eq_nil_iff.mp harg2) hne
      | cons b bs => exact ⟨b, bs, rfl⟩
    have hbmem : b ∈ arg := List.mem_reverse.mp (hb ▸ List.mem_cons_self b bs)
    rw [hb, List.cons_append, List.dropWhile_cons]
    simp [hnws b hbmem]
  exact jsTrim_of_ends _ h1 h2

/-- Witness for C5, Scenario C of the specification. -/
theorem rewriteSkipDiscuss_scenarioC :
    rewriteSkipDiscuss true "/gsd-discuss-phase 3".data =
      "/gsd-plan-phase 3".data :=
  rewriteSkipDiscuss_discuss_to_plan "3".data (by decide)
    (by intro c hc; simp at hc; subst hc; decide)

/-- A successful `dropLit` decomposes its input. -/
theorem dropLit_eq_some (p cs r : List Char) (h : dropLit p cs = some r) :
    cs = p ++ r := by
  induction p generalizing cs with
  | nil => simp [dropLit] at h; simp [h]
  | cons a ps ih =>
    cases cs with
    | nil => simp [dropLit] at h
    | cons c cs2 =>
      unfold dropLit at h
      cases hbe : (c == a) with
      | false => rw [hbe] at h; simp at h
      | true =>
        rw [hbe] at h; simp at h
        have hca : c = a := by simpa using hbe
        subst hca
        rw [List.cons_append, ih cs2 h]

/-- A successful `dropLitCI` decomposes its input up to case. -/
theorem dropLitCI_eq_some (p cs r : List Char) (h : dropLitCI p cs = some r) :
    ∃ q, cs = q ++ r ∧ q.map Char.toLower = p.map Char.toLower := by
  induction p generalizing cs with
  | nil => simp [dropLitCI] at h; exact ⟨[], by simp [h], rfl⟩
  | cons a ps ih =>
    cases cs with
    | nil => simp [dropLitCI] at h
    | cons c cs2 =>
      unfold dropLitCI at h
      cases hbe : (c.toLower == a.toLower) with
      | false => rw [hbe] at h; simp at h
      | true =>
        rw [hbe] at h; simp at h
        obtain ⟨q, hq1, hq2⟩ := ih cs2 h
        exact ⟨c :: q, by simp [hq1],
          by simp [hq2, show c.toLower = a.toLower from by simpa using hbe]⟩

/-- Any list splits at its whitespace run before a known `dropWhile`
    outcome. -/
theorem exists_takeWhile_split (l X : List Char)
    (h : l.dropWhile isJsWs = X) : ∃ t, l = t ++ X := by
  refine ⟨l.takeWhile isJsWs, ?_⟩
  conv_lhs => rw [← List.takeWhile_append_dropWhile isJsWs l]
  rw [h]

/-- A prefix occurrence is a substring occurrence. -/
theorem contains_of_pre (pat cs : List Char) (h : isPrefixL pat cs = true) :
    containsSub pat cs = true := by
  cases cs <;> simp [containsSub, h]

/-- Substring occurrence survives adding a head character. -/
theorem contains_cons (pat : List Char) (c : Char) (rest : List Char)
    (h : containsSub pat rest = true) :
    containsSub pat (c :: rest) = true := by
  simp [containsSub, h]

/-- A pattern occurs in any list of the form `a ++ (pat ++ b)`. -/
theorem contains_append_mid (pat a b : List Char) :
    containsSub pat (a ++ (pat ++ b)) = true := by
  induction a with
  | nil => exact contains_of_pre _ _ (by simp [isPrefixL, dropLit_append])
  | cons c cs ih => exact contains_cons _ _ _ ih

/-- A case-insensitive occurrence of the anchor phrase lowers to an
    occurrence of `sNextUpLower` in the lowered text. -/
theorem contains_lower_of_split (cs q b1 b2 : List Char)
    (h1 : cs = b1 ++ (q ++ b2))
    (h2 : q.map Char.toLower = sNextUpLower) :
    containsSub sNextUpLower (cs.map Char.toLower) = true := by
  subst h1
  rw [List.map_append, List.map_append, h2]
  exact contains_append_mid _ _ _

/-- Elimination for a successful `Option` alternative. -/
theorem orElse_some_elim {α : Type} (a b : Option α) (x : α)
    (h : (a <|> b) = some x) :
    a = some x ∨ (a = none ∧ b = some x) := by
  cases a <;> simp_all

/-- A successful arrow head contains the literal anchor phrase. -/
theorem arrowNextUp_sub (ds r : List Char) (h : arrowNextUp ds = some r) :
    ∃ a b, ds = a ++ (sNextUp ++ b) := by
  cases ds with
  | nil => simp [arrowNextUp] at h
  | cons c rest =>
    have h2 : (if (c == '►' || c == '▶') = true then
        dropLit sNextUp (rest.dropWhile isJsWs) else none) = some r := h
    by_cases hb : (c == '►' || c == '▶') = true
    · rw [if_pos hb] at h2
      have hd := dropLit_eq_some _ _ _ h2
      obtain ⟨t, ht⟩ := exists_takeWhile_split rest _ hd
      exact ⟨c :: t, r, by rw [ht, List.cons_append]⟩
    · rw [if_neg hb] at h2; cases h2

/-- A successful quote head contains the literal anchor phrase. -/
theorem gtNextUp_sub (ds r : List Char) (h : gtNextUp ds = some r) :
    ∃ a b, ds = a ++ (sNextUp ++ b) := by
  cases ds with
  | nil => simp [gtNextUp] at h
  | cons c rest =>
    have h2 : (if (c == '>') = true then
        dropLit sNextUp (rest.dropWhile isJsWs) else none) = some r := h
    by_cases hb : (c == '>') = true
    · rw [if_pos hb] at h2
      have hd := dropLit_eq_some _ _ _ h2
      obtain ⟨t, ht⟩ := exists_takeWhile_split rest _ hd
      exact ⟨c :: t, r, by rw [ht, List.cons_append]⟩
    · rw [if_neg hb] at h2; cases h2

/-- Anchor pattern 1 requires the literal anchor phrase. -/
theorem p1Head_sub (cs r : List Char) (h : p1Head cs = some r) :
    ∃ a b, cs = a ++ (sNextUp ++ b) := by
  unfold p1Head at h
  cases hd : dropLit sHashHash cs with
  | none => rw [hd] at h; exact arrowNextUp_sub _ _ h
  | some r1 =>
    rw [hd] at h
    have h1 := dropLit_eq_some _ _ _ hd
    have h2 : (arrowNextUp (r1.dropWhile isJsWs) <|> arrowNextUp cs) = some r := h
    rcases orElse_some_elim _ _ _ h2 with h3 | ⟨-, h3⟩
    · obtain ⟨a, b, hab⟩ := arrowNextUp_sub _ _ h3
      obtain ⟨t, ht⟩ := exists_takeWhile_split r1 _ hab
      exact ⟨sHashHash ++ (t ++ a), b, by rw [h1, ht]; simp [List.append_assoc]⟩
    · exact arrowNextUp_sub _ _ h3

/-- Anchor pattern 2 requires the literal anchor phrase. -/
theorem p2Head_sub (cs r : List Char) (h : p2Head cs = some r) :
    ∃ a b, cs = a ++ (sNextUp ++ b) := by
  unfold p2Head at h
  cases hd : dropLit sHashHash cs with
  | none => rw [hd] at h; exact gtNextUp_sub _ _ h
  | some r1 =>
    rw [hd] at h
    have h1 := dropLit_eq_some _ _ _ hd
    have h2 : (gtNextUp (r1.dropWhile isJsWs) <|> gtNextUp cs) = some r := h
    rcases orElse_some_elim _ _ _ h2 with h3 | ⟨-, h3⟩
    · obtain ⟨a, b, hab⟩ := gtNextUp_sub _ _ h3
      obtain ⟨t, ht⟩ := exists_takeWhile_split r1 _ hab
      exact ⟨sHashHash ++ (t ++ a), b, by rw [h1, ht]; simp [List.append_assoc]⟩
    · exact gtNextUp_sub _ _ h3

/-- Anchor pattern 3 requires the literal anchor phrase. -/
theorem p3Head_sub (cs r : List Char) (h : p3Head cs = some r) :
    ∃ a b, cs = a ++ (sNextUp ++ b) := by
  unfold p3Head at h
  cases hd : dropLit sHashHash cs with
  | none => rw [hd] at h; cases h
  | some r1 =>
    rw [hd] at h
    have h1 := dropLit_eq_some _ _ _ hd
    have h2 := dropLit_eq_some _ _ _ h
    obtain ⟨t, ht⟩ := exists_takeWhile_split r1 _ h2
    exact ⟨sHashHash ++ t, r, by rw [h1, ht]; simp [List.append_assoc]⟩

/-- Anchor pattern 1 implies a case-insensitive phrase occurrence. -/
theorem p1Head_contains (t r : List Char) (h : p1Head t = some r) :
    containsSub sNextUpLower (t.map Char.toLower) = true := by
  obtain ⟨a, b, hab⟩ := p1Head_sub t r h
  exact contains_lower_of_split t sNextUp a b hab (by decide)

/-- Anchor pattern 2 implies a case-insensitive phrase occurrence. -/
theorem p2Head_contains (t r : List Char) (h : p2Head t = some r) :
    containsSub sNextUpLower (t.map Char.toLower) = true := by
  obtain ⟨a, b, hab⟩ := p2Head_sub t r h
  exact contains_lower_of_split t sNextUp a b hab (by decide)

/-- Anchor pattern 3 implies a case-insensitive phrase occurrence. -/
theorem p3Head_contains (t r : List Char) (h : p3Head t = some r) :
    containsSub sNextUpLower (t.map Char.toLower) = true := by
  obtain ⟨a, b, hab⟩ := p3Head_sub t r h
  exact contains_lower_of_split t sNextUp a b hab (by decide)

/-- Anchor pattern 4 implies a case-insensitive phrase occurrence. -/
theorem p4Head_contains (t r : List Char) (h : p4Head t = some r) :
    containsSub sNextUpLower (t.map Char.toLower) = true := by
  unfold p4Head at h
  cases hd : dropLitCI sNextUp t with
  | none => rw [hd] at h; cases h
  | some r0 =>
    obtain ⟨q, hq1, hq2⟩ := dropLitCI_eq_some _ _ _ hd
    refine contains_lower_of_split t q [] r0 (by simpa using hq1) ?_
    rw [hq2]; decide

/-- If every position at which `head` succeeds contains the anchor
    phrase (case-insensitively), then a text with no such occurrence
    has no anchor match anywhere. -/
theorem anchor_ffm_none (head : List Char → Option (List Char))
    (look : List Char → Bool)
    (hc : ∀ t r, head t = some r →
      containsSub sNextUpLower (t.map Char.toLower) = true) :
    ∀ cs, containsSub sNextUpLower (cs.map Char.toLower) = false →
      findFirstMatchFrom (anchorMatchAt head look) cs = none := by
  intro cs
  induction cs with
  | nil =>
    intro h
    cases hh : head [] with
    | some r => cases (hc [] r hh).symm.trans h
    | none => simp [findFirstMatchFrom, anchorMatchAt, hh]
  | cons c rest ih =>
    intro h
    have h2 : containsSub sNextUpLower (rest.map Char.toLower) = false := by
      rw [List.map_cons] at h
      simp only [containsSub] at h
      cases hy : containsSub sNextUpLower (rest.map Char.toLower) with
      | false => rfl
      | true => rw [hy] at h; simp at h
    cases hh : head (c :: rest) with
    | some r => cases (hc _ r hh).symm.trans h
    | none =>
      simp only [findFirstMatchFrom, anchorMatchAt, hh, Option.map_none']
      exact ih h2

/-- Claim C9: a text with no case-insensitive occurrence of the anchor
    phrase "Next Up" yields no command — every anchor pattern requires
    the phrase, so the no-match branch is taken.  (`extractNextCommand`
    is a total Lean function, so no exception can occur.) -/
theorem extractNone_of_noPhrase (content : List Char)
    (h : containsSub sNextUpLower (content.map Char.toLower) = false) :
    extractNextCommand content = none := by
  have h1 := anchor_ffm_none p1Head look1 p1Head_contains content h
  have h2 := anchor_ffm_none p2Head look1 p2Head_contains content h
  have h3 := anchor_ffm_none p3Head look1 p3Head_contains content h
  have h4 := anchor_ffm_none p4Head look4 p4Head_contains content h
  have hs : findNextUpSection content = none := by
    unfold findNextUpSection
    rw [h1, h2, h3, h4]
    rfl
  unfold extractNextCommand
  rw [hs]
  split <;> rfl

/-- Witness for C9 at a concrete phrase-free text. -/
theorem extractNone_of_noPhrase_witness :
    extractNextCommand "All done. Great work!".data = none :=
  extractNone_of_noPhrase _ (by decide)

/-- Witness for C6 at a concrete store state: after one read of a live
    record, a second read returns absent. -/
theorem pendingRead_consumes_witness :
    (getPendingCommand reliableFs
        (getPendingCommand reliableFs
          (PendingState.record "/gsd-plan-phase 2".data 0) 1000).2 2000).1 =
      none :=
  (pendingRead_consumes (PendingState.record "/gsd-plan-phase 2".data 0)
    1000 2000).1
